import Mathlib

/-!
Verification of the ClawBridge resilient RPC core against its
natural-language specification.

The development shallowly embeds the four claim-relevant components:

* `ClawBridge.EventBuffer`    — the bounded event ring buffer
  (src/src/event-buffer.ts);
* `ClawBridge.ResponseRouter` — the FIFO response correlator
  (src/extension/src/response-router.ts);
* `ClawBridge.GatewayClient`  — the gateway RPC client
  (src/src/gateway-client.ts);
* `ClawBridge.CdpBridge`      — the target-control (CDP) bridge
  (src/cdp-bridge.ts).

Sockets, timers and promises are embedded as explicit state passing:
a promise's eventual fate is recorded in an append-only outcome log,
timer callbacks become pure functions of the state and an explicit
clock value, and `Date.now()` becomes an explicit `now : Int` argument.
JavaScript truthiness checks on optional strings / numbers are spelled
out where the source relies on them.
-/

namespace ClawBridge

/-! ## Event Ring Buffer (src/src/event-buffer.ts) -/

namespace EventBuffer

/-- Wire event frame: only the fields the buffer inspects (`event`) plus an
opaque payload stand-in. -/
structure EventFrame where
  event : String
  payload : Option String := none
  deriving Repr, DecidableEq

/-- `BufferedEvent = { ts, frame }`. -/
structure BufferedEvent where
  ts : Int
  frame : EventFrame
  deriving Repr, DecidableEq

def DEFAULT_CAPACITY : Nat := 1000

/-- The buffer object: internal array plus fixed capacity. -/
structure Buffer where
  buf : List BufferedEvent
  capacity : Nat
  deriving Repr, DecidableEq

/-- `new EventBuffer(capacity)`. -/
def mkBuffer (capacity : Nat) : Buffer := ⟨[], capacity⟩

/-- `push(frame)`: if `buf.length >= capacity` shift one entry off the
front, then append `{ts: Date.now(), frame}`. -/
def push (b : Buffer) (now : Int) (frame : EventFrame) : Buffer :=
  let buf := if b.capacity ≤ b.buf.length then b.buf.drop 1 else b.buf
  { b with buf := buf ++ [⟨now, frame⟩] }

/-- Query options; `none` models an absent field. -/
structure QueryOpts where
  eventType : Option String := none
  since : Option Int := none
  limit : Option Int := none

/-- `query(opts)`: filter by event-name equality when `opts.eventType` is
truthy, then by `ts >= since` when `opts.since` is truthy, then keep the
last `limit` entries when `opts.limit && opts.limit > 0`. -/
def query (b : Buffer) (opts : QueryOpts) : List BufferedEvent :=
  let results := b.buf
  let results :=
    match opts.eventType with
    | some et => if et ≠ "" then results.filter (fun e => e.frame.event == et) else results
    | none => results
  let results :=
    match opts.since with
    | some cutoff => if cutoff ≠ 0 then results.filter (fun e => cutoff ≤ e.ts) else results
    | none => results
  match opts.limit with
  | some l => if 0 < l then results.drop (results.length - l.toNat) else results
  | none => results

/-- `clear()`. -/
def clear (b : Buffer) : Buffer := { b with buf := [] }

/-- `get size()`. -/
def size (b : Buffer) : Nat := b.buf.length

/-- Push a whole list of (timestamp, frame) pairs in order. -/
def pushMany (b : Buffer) (items : List (Int × EventFrame)) : Buffer :=
  items.foldl (fun b it => push b it.1 it.2) b

end EventBuffer

/-! ## Response Correlator (src/extension/src/response-router.ts) -/

namespace ResponseRouter

def CONTEXT_TIMEOUT_MS : Int := 300000

/-- `PendingMessage = { channelId, from, injectedAt }` (`from` is a Lean
keyword, hence `from_`). -/
structure PendingMessage where
  channelId : String
  from_ : String
  injectedAt : Int
  deriving Repr, DecidableEq

/-- Router state: the pending queue plus whether a response callback has
been registered via `onResponse`. -/
structure Router where
  pendingMessages : List PendingMessage
  hasCallback : Bool
  deriving Repr, DecidableEq

/-- `pruneStale()`: `while (pending.length > 0 && pending[0].injectedAt <
Date.now() - CONTEXT_TIMEOUT_MS) pending.shift()` — evicts from the front
only, stopping at the first fresh record. -/
def pruneStale (now : Int) : List PendingMessage → List PendingMessage
  | [] => []
  | m :: rest =>
    if m.injectedAt < now - CONTEXT_TIMEOUT_MS then pruneStale now rest
    else m :: rest

/-- `trackInjection(channelId, from)`: push `{channelId, from, injectedAt:
Date.now()}`, then prune. -/
def trackInjection (r : Router) (now : Int) (channelId from_ : String) : Router :=
  { r with pendingMessages := pruneStale now (r.pendingMessages ++ [⟨channelId, from_, now⟩]) }

/-- `routeResponse(text)`: prune, shift one record, and — only if both a
record and the callback exist — deliver `(channelId, from, text)`.
The shift happens before the callback check. -/
def routeResponse (r : Router) (now : Int) (text : String) :
    Router × Option (String × String × String) :=
  let msgs := pruneStale now r.pendingMessages
  match msgs with
  | [] => ({ r with pendingMessages := msgs }, none)
  | pending :: rest =>
    if r.hasCallback then
      ({ r with pendingMessages := rest }, some (pending.channelId, pending.from_, text))
    else
      ({ r with pendingMessages := rest }, none)

end ResponseRouter

/-! ## Gateway Connection (src/src/gateway-client.ts) -/

namespace GatewayClient

/-- Eventual fate of a pending request's promise. -/
inductive Outcome
  | resolved (payload : Option String)
  | rejected (message : String)
  deriving Repr, DecidableEq

/-- `ResponseFrame = { type: "res", id, ok, payload?, error? }`;
`errorMessage` embeds `error?.message` (`none` = error absent or without
a message — `??` treats both alike). -/
structure ResponseFrame where
  id : String
  ok : Bool
  payload : Option String := none
  errorMessage : Option String := none
  deriving Repr, DecidableEq

/-- Event frame as the client inspects it: the event name and, for
`connect.challenge`, `payload.nonce` when that field is a string. -/
structure EventFrame where
  event : String
  nonce : Option String := none
  deriving Repr, DecidableEq

/-- A request frame `{type: "req", id, method}` handed to `ws.send`. -/
structure ReqFrame where
  id : String
  method : String
  deriving Repr, DecidableEq

/-- Mutable fields of `GatewayClient`. `wsOpen` abbreviates
`ws !== null && ws.readyState === OPEN`; `pending` holds the keys of the
pending map in insertion order. -/
structure State where
  wsOpen : Bool
  closed : Bool
  connectSent : Bool
  connectNonce : Option String
  pending : List String
  backoffMs : Nat
  lastTick : Option Int
  tickIntervalMs : Int
  deriving Repr, DecidableEq

/-- Field initializers of `GatewayClient`. -/
def initial : State :=
  { wsOpen := false, closed := false, connectSent := false, connectNonce := none
    pending := [], backoffMs := 1000, lastTick := none, tickIntervalMs := 30000 }

/-- `isConnected()`. -/
def isConnected (st : State) : Bool := st.wsOpen && st.connectSent

/-- `request(method, params)` with the fresh `randomUUID()` passed in
explicitly: throws unless the socket is open; otherwise registers the id
in the pending map and sends the frame. -/
def request (st : State) (id : String) (method : String) :
    Except String (State × ReqFrame) :=
  if st.wsOpen = false then Except.error "gateway not connected"
  else Except.ok ({ st with pending := st.pending ++ [id] }, ⟨id, method⟩)

/-- Log of settled request promises, keyed by request id. -/
def logFor (i : String) (log : List (String × Outcome)) : List (String × Outcome) :=
  log.filter (fun e => e.1 == i)

/-- How `handleMessage` settles a matched response: resolve with the
payload when `ok`, otherwise reject with `error?.message ?? "unknown
error"`. -/
def responseOutcome (r : ResponseFrame) : Outcome :=
  if r.ok then Outcome.resolved r.payload
  else Outcome.rejected (r.errorMessage.getD "unknown error")

/-- Response branch of `handleMessage`: look the id up in the pending map
(dropping the frame if absent), delete it, then settle the promise. -/
def handleResponse (st : State) (log : List (String × Outcome)) (r : ResponseFrame) :
    State × List (String × Outcome) :=
  if r.id ∈ st.pending then
    ({ st with pending := st.pending.erase r.id }, log ++ [(r.id, responseOutcome r)])
  else (st, log)

/-- Fold `handleResponse` over a list of response frames. -/
def processResponses (st : State) (log : List (String × Outcome))
    (rs : List ResponseFrame) : State × List (String × Outcome) :=
  rs.foldl (fun p r => handleResponse p.1 p.2 r) (st, log)

/-- Event branch of `handleMessage` (with `Date.now()` and the fresh
request id for a possible `sendConnect` passed explicitly). Returns the
new state, the connect request frame if one was sent, and whether the
frame reaches `opts.onEvent`. -/
def handleEvent (st : State) (now : Int) (e : EventFrame) (freshId : String) :
    State × Option ReqFrame × Bool :=
  if e.event == "connect.challenge" then
    match e.nonce with
    | some n =>
      if n ≠ "" then
        let st1 : State := { st with connectNonce := some n }
        -- sendConnect(): no-op when a connect was already sent
        if st1.connectSent then (st1, none, false)
        else
          let st2 : State := { st1 with connectSent := true }
          match request st2 freshId "connect" with
          | Except.ok (st3, fr) => (st3, some fr, false)
          | Except.error _ => (st2, none, false)
      else (st, none, false)
    | none => (st, none, false)
  else
    let st1 : State := if e.event == "tick" then { st with lastTick := some now } else st
    (st1, none, true)

/-- The `.then` continuation of the `connect` handshake request: reset the
backoff, renegotiate `tickIntervalMs` from `policy.tickIntervalMs` when it
is a number (else 30000), and stamp `lastTick`. -/
def applyHelloOk (st : State) (policyTickIntervalMs : Option Int) (now : Int) : State :=
  { st with backoffMs := 1000
            tickIntervalMs := policyTickIntervalMs.getD 30000
            lastTick := some now }

/-- Timer period chosen by `startTickWatch`: `Math.max(tickIntervalMs, 1000)`. -/
def startTickWatchInterval (tickIntervalMs : Int) : Int := max tickIntervalMs 1000

/-- Body of the `startTickWatch` interval callback: `true` iff this firing
force-closes the socket (`ws?.close(4000, "tick timeout")`). -/
def tickCheckCloses (st : State) (now : Int) : Bool :=
  if st.closed then false
  else
    match st.lastTick with
    | none => false
    | some t =>
      if t = 0 then false  -- `!this.lastTick` is also true for 0
      else decide (st.tickIntervalMs * 2 < now - t)

/-- `flushPendingErrors(err)`: reject every pending promise with the same
error and clear the map. -/
def flushPendingErrors (st : State) (log : List (String × Outcome)) (message : String) :
    State × List (String × Outcome) :=
  ({ st with pending := [] },
   log ++ st.pending.map (fun i => (i, Outcome.rejected message)))

/-- `scheduleReconnect()`: no-op when intentionally closed; otherwise
double the backoff (capped at 30000), reset the handshake flags and
schedule `start()` after the old backoff value (the returned delay). -/
def scheduleReconnect (st : State) : State × Option Nat :=
  if st.closed then (st, none)
  else
    ({ st with backoffMs := min (st.backoffMs * 2) 30000
               connectNonce := none
               connectSent := false },
     some st.backoffMs)

/-- The `ws.on("close")` handler: drop the socket, flush pending requests
with `gateway closed (code): reason`, then schedule a reconnect. -/
def handleClose (st : State) (log : List (String × Outcome)) (code : Int) (reason : String) :
    State × List (String × Outcome) × Option Nat :=
  let st1 : State := { st with wsOpen := false }
  let (st2, log2) := flushPendingErrors st1 log
    ("gateway closed (" ++ toString code ++ "): " ++ reason)
  let (st3, delay) := scheduleReconnect st2
  (st3, log2, delay)

/-- `stop()`: mark intentionally closed, cancel the watchdog, close and
drop the socket, flush pending requests. -/
def stop (st : State) (log : List (String × Outcome)) :
    State × List (String × Outcome) :=
  let st1 : State := { st with closed := true, wsOpen := false }
  flushPendingErrors st1 log "gateway client stopped"

/-- Delay of the (n+1)-th consecutive reconnect attempt starting from
`st`, obtained by iterating `scheduleReconnect`. -/
def nthReconnectDelay (st : State) : Nat → Option Nat
  | 0 => (scheduleReconnect st).2
  | n + 1 => nthReconnectDelay (scheduleReconnect st).1 n

end GatewayClient

/-! ## Target Control Connection (src/cdp-bridge.ts) -/

namespace CdpBridge

/-- `CdpTarget` as returned by `/json/list`. -/
structure CdpTarget where
  id : String
  type : String
  title : String
  url : String
  webSocketDebuggerUrl : Option String := none
  deriving Repr, DecidableEq

/-- `parsed.error` of a CDP response: an object whose `message` field may
be absent. -/
structure CdpError where
  message : Option String := none
  deriving Repr, DecidableEq

/-- A CDP response frame `{id, result?, error?}`. -/
structure CdpResponse where
  id : Nat
  result : Option String := none
  error : Option CdpError := none
  deriving Repr, DecidableEq

/-- Eventual fate of a pending request's promise. -/
inductive Outcome
  | resolved (result : Option String)
  | rejected (message : String)
  deriving Repr, DecidableEq

/-- Mutable fields of `CdpBridge`. `wsOpen` abbreviates
`ws !== null && ws.readyState === OPEN`; `pending` holds the keys of the
pending map in insertion order. -/
structure State where
  wsOpen : Bool
  nextId : Nat
  pending : List Nat
  closed : Bool
  backoffMs : Nat
  deriving Repr, DecidableEq

/-- Field initializers of `CdpBridge` (`nextId = 1`, `backoffMs = 1000`). -/
def initial : State :=
  { wsOpen := false, nextId := 1, pending := [], closed := false, backoffMs := 1000 }

/-- `isConnected()`. -/
def isConnected (st : State) : Bool := st.wsOpen

/-- `send(method, params)`: throws unless the socket is open; otherwise
consumes `nextId++` as the correlation id, sends `{id, method, params}`
and registers the id in the pending map. Returns the id used. -/
def send (st : State) : Except String (State × Nat) :=
  if st.wsOpen = false then Except.error "CDP WebSocket not connected"
  else Except.ok
    ({ st with nextId := st.nextId + 1, pending := st.pending ++ [st.nextId] }, st.nextId)

/-- JS truthiness of `parsed.error?.message`: the message, provided the
error object exists, carries a `message`, and that message is non-empty. -/
def errMessageTruthy : Option CdpError → Option String
  | some e =>
    match e.message with
    | some m => if m = "" then none else some m
    | none => none
  | none => none

/-- Log of settled request promises, keyed by request id. -/
def logFor (i : Nat) (log : List (Nat × Outcome)) : List (Nat × Outcome) :=
  log.filter (fun e => e.1 == i)

/-- How the message handler settles a matched response: reject when
`error?.message` is truthy, otherwise resolve with `result`. -/
def responseOutcome (r : CdpResponse) : Outcome :=
  match errMessageTruthy r.error with
  | some m => Outcome.rejected m
  | none => Outcome.resolved r.result

/-- Response branch of the `ws.on("message")` handler (frames with a
numeric `id`): look the id up in the pending map (dropping the frame if
absent), delete it, then settle the promise. -/
def handleResponse (st : State) (log : List (Nat × Outcome)) (r : CdpResponse) :
    State × List (Nat × Outcome) :=
  if r.id ∈ st.pending then
    ({ st with pending := st.pending.erase r.id }, log ++ [(r.id, responseOutcome r)])
  else (st, log)

/-- Fold `handleResponse` over a list of response frames. -/
def processResponses (st : State) (log : List (Nat × Outcome))
    (rs : List CdpResponse) : State × List (Nat × Outcome) :=
  rs.foldl (fun p r => handleResponse p.1 p.2 r) (st, log)

/-- `rejectAllPending(err)`: reject every pending promise with the same
error and clear the map. -/
def rejectAllPending (st : State) (log : List (Nat × Outcome)) (message : String) :
    State × List (Nat × Outcome) :=
  ({ st with pending := [] },
   log ++ st.pending.map (fun i => (i, Outcome.rejected message)))

/-- `scheduleReconnect()`: no-op when intentionally closed; otherwise
double the backoff (capped at 30000) and schedule a reconnect after the
old backoff value (the returned delay). -/
def scheduleReconnect (st : State) : State × Option Nat :=
  if st.closed then (st, none)
  else ({ st with backoffMs := min (st.backoffMs * 2) 30000 }, some st.backoffMs)

/-- The `ws.on("close")` handler: reject all pending calls with
`CDP WebSocket closed`, drop the socket, then schedule a reconnect. -/
def handleWsClose (st : State) (log : List (Nat × Outcome)) :
    State × List (Nat × Outcome) × Option Nat :=
  let (st1, log1) := rejectAllPending st log "CDP WebSocket closed"
  let st2 : State := { st1 with wsOpen := false }
  let (st3, delay) := scheduleReconnect st2
  (st3, log1, delay)

/-- The `ws.on("error")` handler: reject all pending calls with the
socket error (the socket itself is kept; a close event follows). -/
def handleWsError (st : State) (log : List (Nat × Outcome)) (message : String) :
    State × List (Nat × Outcome) :=
  rejectAllPending st log message

/-- `disconnect()`: mark intentionally closed, stop the health ping,
reject all pending calls with `CDP bridge disconnected`, drop the socket. -/
def disconnect (st : State) (log : List (Nat × Outcome)) :
    State × List (Nat × Outcome) :=
  let st1 : State := { st with closed := true }
  let (st2, log2) := rejectAllPending st1 log "CDP bridge disconnected"
  ({ st2 with wsOpen := false }, log2)

/-- Target selection in `connect`:
`targets.find((t) => t.type === "page") ?? targets[0]`. -/
def selectTarget (targets : List CdpTarget) : Option CdpTarget :=
  match targets.find? (fun t => t.type == "page") with
  | some t => some t
  | none => targets.head?

/-- The selected target's `webSocketDebuggerUrl` provided it passes the
`!target?.webSocketDebuggerUrl` truthiness guard (present and non-empty). -/
def selectedWsUrl (targets : List CdpTarget) : Option String :=
  match selectTarget targets with
  | some t =>
    match t.webSocketDebuggerUrl with
    | some u => if u = "" then none else some u
    | none => none
  | none => none

/-- State change of a successful `connect`: `closed = false` (set on
entry), socket open, backoff reset to 1000. -/
def connectOkEffect (st : State) : State :=
  { st with closed := false, wsOpen := true, backoffMs := 1000 }

/-- `connect(host, port)` given the discovery response `targets` and
whether `openWebSocket` succeeds: clears `closed`, selects a target,
fails with the discovery error when the guarded url is missing, then
opens the socket and resets the backoff. -/
def connect (st : State) (targets : List CdpTarget) (openSucceeds : Bool) :
    Except String (State × String) :=
  let st1 : State := { st with closed := false }
  match selectedWsUrl targets with
  | none => Except.error "No CDP target with webSocketDebuggerUrl found"
  | some u =>
    if openSucceeds then Except.ok (connectOkEffect st1, u)
    else Except.error "ws open failed"

/-- Delay of the (n+1)-th consecutive reconnect attempt starting from
`st`, obtained by iterating `scheduleReconnect`. -/
def nthReconnectDelay (st : State) : Nat → Option Nat
  | 0 => (scheduleReconnect st).2
  | n + 1 => nthReconnectDelay (scheduleReconnect st).1 n

/-! ### Whole-lifetime runs of a `CdpBridge` object -/

/-- External stimuli driving one `CdpBridge` object. -/
inductive Input
  | wsMessage (r : CdpResponse)
  | wsClose
  | wsError (message : String)
  | send (method : String)
  | disconnect
  | connectOk
  deriving Repr, DecidableEq

/-- A trace: current state, the promise-outcome log, and the correlation
ids issued to `send` callers in order. -/
structure Trace where
  st : State
  log : List (Nat × Outcome)
  issued : List Nat
  deriving Repr, DecidableEq

def initialTrace : Trace := ⟨initial, [], []⟩

/-- One step of the bridge's lifetime. Message handlers only run while
the socket they are attached to is open. -/
def step (tr : Trace) : Input → Trace
  | Input.wsMessage r =>
    if tr.st.wsOpen then
      let (st, log) := handleResponse tr.st tr.log r
      { tr with st := st, log := log }
    else tr
  | Input.wsClose =>
    let (st, log, _) := handleWsClose tr.st tr.log
    { tr with st := st, log := log }
  | Input.wsError m =>
    let (st, log) := handleWsError tr.st tr.log m
    { tr with st := st, log := log }
  | Input.send _ =>
    match send tr.st with
    | Except.ok (st, id) => { tr with st := st, issued := tr.issued ++ [id] }
    | Except.error _ => tr
  | Input.disconnect =>
    let (st, log) := disconnect tr.st tr.log
    { tr with st := st, log := log }
  | Input.connectOk =>
    { tr with st := connectOkEffect tr.st }

/-- Run a list of inputs from a trace. -/
def runFrom (tr : Trace) (ins : List Input) : Trace := ins.foldl step tr

/-- Run a list of inputs from the freshly constructed bridge. -/
def run (ins : List Input) : Trace := runFrom initialTrace ins

/-- Data invariant of a bridge trace: pending and issued ids are below the
id counter, the pending map has no duplicates, logged entries are below
the counter, pending requests are still unsettled, issued ids are strictly
increasing, and the counter never drops below its initial value 1. -/
def Inv (tr : Trace) : Prop :=
  (∀ i ∈ tr.st.pending, i < tr.st.nextId) ∧
  tr.st.pending.Nodup ∧
  (∀ e ∈ tr.log, e.1 < tr.st.nextId) ∧
  (∀ i ∈ tr.st.pending, logFor i tr.log = []) ∧
  (∀ i ∈ tr.issued, i < tr.st.nextId) ∧
  tr.issued.Chain' (· < ·) ∧
  1 ≤ tr.st.nextId

/-- Request id `i` can no longer be touched: it is not pending and the
counter has moved past it. -/
def untouched (i : Nat) (tr : Trace) : Prop :=
  i ∉ tr.st.pending ∧ i < tr.st.nextId

end CdpBridge

/-! ## Backoff recurrence shared by both variants -/

namespace Backoff

/-- One backoff update: `backoffMs = Math.min(backoffMs * 2, 30000)`. -/
def doubleCap (b : Nat) : Nat := min (b * 2) 30000

/-- Backoff value before the (n+1)-th consecutive attempt, starting at `b`. -/
def iter (b : Nat) : Nat → Nat
  | 0 => b
  | n + 1 => iter (doubleCap b) n

end Backoff

/-! ## Lemmas about the Event Ring Buffer -/

namespace EventBuffer

theorem push_from_drop (C : Nat) (hC : 1 ≤ C) (L : List BufferedEvent)
    (now : Int) (f : EventFrame) :
    push (Buffer.mk (L.drop (L.length - C)) C) now f
      = Buffer.mk ((L ++ [BufferedEvent.mk now f]).drop (L.length + 1 - C)) C := by
  unfold push
  by_cases h : C ≤ L.length
  · have hcond : C ≤ (L.drop (L.length - C)).length := by
      simp only [List.length_drop]; omega
    have hle : L.length + 1 - C ≤ L.length := by omega
    rw [List.drop_append_of_le_length hle]
    simp only [hcond, if_pos, List.drop_drop]
    have heq : L.length - C + 1 = L.length + 1 - C := by omega
    rw [heq]
  · have h0 : L.length - C = 0 := by omega
    have h1 : L.length + 1 - C = 0 := by omega
    have hcond : ¬ C ≤ (L.drop (L.length - C)).length := by
      simp only [List.length_drop]; omega
    rw [h0, h1]
    rw [h0] at hcond
    simp only [List.drop_zero] at hcond ⊢
    rw [if_neg hcond]

theorem pushMany_from_drop (C : Nat) (hC : 1 ≤ C) :
    ∀ (items : List (Int × EventFrame)) (L : List BufferedEvent),
    pushMany (Buffer.mk (L.drop (L.length - C)) C) items
      = Buffer.mk ((L ++ items.map (fun it => BufferedEvent.mk it.1 it.2)).drop
          (L.length + items.length - C)) C := by
  intro items
  induction items with
  | nil => intro L; simp [pushMany]
  | cons it rest ih =>
    intro L
    have h1 : pushMany (Buffer.mk (L.drop (L.length - C)) C) (it :: rest)
        = pushMany (push (Buffer.mk (L.drop (L.length - C)) C) it.1 it.2) rest := rfl
    rw [h1, push_from_drop C hC]
    have h2 := ih (L ++ [BufferedEvent.mk it.1 it.2])
    simp only [List.length_append, List.length_singleton] at h2
    rw [h2]
    simp only [List.map_cons, List.append_assoc, List.singleton_append,
      List.length_cons]
    have heq : L.length + 1 + rest.length - C = L.length + (rest.length + 1) - C := by omega
    rw [heq]

theorem pushMany_mkBuffer (C : Nat) (hC : 1 ≤ C) (items : List (Int × EventFrame)) :
    pushMany (mkBuffer C) items
      = Buffer.mk ((items.map (fun it => BufferedEvent.mk it.1 it.2)).drop
          (items.length - C)) C := by
  have h := pushMany_from_drop C hC items []
  simpa [mkBuffer] using h

theorem query_no_filters (b : Buffer) : query b {} = b.buf := rfl

end EventBuffer

/-! ## Lemmas about the Response Correlator -/

namespace ResponseRouter

theorem pruneStale_cons_of_fresh {now : Int} {m : PendingMessage}
    {rest : List PendingMessage} (h : ¬ m.injectedAt < now - CONTEXT_TIMEOUT_MS) :
    pruneStale now (m :: rest) = m :: rest := by
  simp [pruneStale, h]

theorem pruneStale_cons_of_stale {now : Int} {m : PendingMessage}
    {rest : List PendingMessage} (h : m.injectedAt < now - CONTEXT_TIMEOUT_MS) :
    pruneStale now (m :: rest) = pruneStale now rest := by
  simp [pruneStale, h]

theorem routeResponse_pending (r : Router) (now : Int) (text : String) :
    (routeResponse r now text).1.pendingMessages
      = (pruneStale now r.pendingMessages).drop 1 := by
  unfold routeResponse
  cases h : pruneStale now r.pendingMessages with
  | nil => simp [h]
  | cons m rest =>
    simp only [h]
    by_cases hcb : r.hasCallback <;> simp [hcb]

theorem routeResponse_none_of_no_callback (r : Router) (now : Int) (text : String)
    (h : r.hasCallback = false) :
    (routeResponse r now text).2 = none := by
  unfold routeResponse
  cases hp : pruneStale now r.pendingMessages with
  | nil => simp [hp]
  | cons m rest => simp [hp, h]

end ResponseRouter

/-! ## Lemmas about the backoff recurrence -/

namespace Backoff

theorem iter_succ : ∀ (n b : Nat), iter b (n + 1) = doubleCap (iter b n) := by
  intro n
  induction n with
  | zero => intro b; rfl
  | succ n ih =>
    intro b
    show iter (doubleCap b) (n + 1) = doubleCap (iter b (n + 1))
    rw [ih (doubleCap b)]
    rfl

theorem iter_1000 (n : Nat) : iter 1000 n = min (1000 * 2 ^ n) 30000 := by
  induction n with
  | zero => rfl
  | succ n ih =>
    rw [iter_succ, ih]
    simp only [doubleCap, pow_succ]
    omega

end Backoff

namespace CdpBridge

theorem nthReconnectDelay_eq (n : Nat) :
    ∀ st : State, st.closed = false →
    nthReconnectDelay st n = some (Backoff.iter st.backoffMs n) := by
  induction n with
  | zero =>
    intro st h
    simp [nthReconnectDelay, scheduleReconnect, h, Backoff.iter]
  | succ n ih =>
    intro st h
    show nthReconnectDelay (scheduleReconnect st).1 n = _
    rw [ih (scheduleReconnect st).1 (by simp [scheduleReconnect, h])]
    simp [scheduleReconnect, h, Backoff.iter, Backoff.doubleCap]

theorem handleResponse_not_pending (st : State) (log : List (Nat × Outcome))
    (r : CdpResponse) (h : r.id ∉ st.pending) :
    handleResponse st log r = (st, log) := by
  simp [handleResponse, h]

theorem handleResponse_pending_fst (st : State) (log : List (Nat × Outcome))
    (r : CdpResponse) (h : r.id ∈ st.pending) :
    (handleResponse st log r).1 = { st with pending := st.pending.erase r.id } := by
  simp [handleResponse, h]

theorem handleResponse_pending_snd (st : State) (log : List (Nat × Outcome))
    (r : CdpResponse) (h : r.id ∈ st.pending) :
    (handleResponse st log r).2 = log ++ [(r.id, responseOutcome r)] := by
  simp [handleResponse, h]

theorem processResponses_cons (st : State) (log : List (Nat × Outcome))
    (r : CdpResponse) (rest : List CdpResponse) :
    processResponses st log (r :: rest)
      = processResponses (handleResponse st log r).1 (handleResponse st log r).2 rest := rfl

theorem logFor_append (i : Nat) (l1 l2 : List (Nat × Outcome)) :
    logFor i (l1 ++ l2) = logFor i l1 ++ logFor i l2 :=
  List.filter_append l1 l2

theorem logFor_other (i j : Nat) (o : Outcome) (h : j ≠ i) :
    logFor i [(j, o)] = [] := by
  simp [logFor, h]

theorem logFor_same (i : Nat) (o : Outcome) :
    logFor i [(i, o)] = [(i, o)] := by
  simp [logFor]

theorem processResponses_logFor (i : Nat) :
    ∀ (rs : List CdpResponse) (st : State) (log : List (Nat × Outcome)),
    st.pending.Nodup →
    logFor i (processResponses st log rs).2
      = logFor i log ++
        (if i ∈ st.pending then
           match (rs.filter (fun r => r.id == i)).head? with
           | some r => [(i, responseOutcome r)]
           | none => []
         else []) := by
  intro rs
  induction rs with
  | nil =>
    intro st log h
    by_cases hi : i ∈ st.pending <;> simp [processResponses, hi]
  | cons r rest ih =>
    intro st log h
    rw [processResponses_cons]
    by_cases hp : r.id ∈ st.pending
    · rw [handleResponse_pending_fst st log r hp, handleResponse_pending_snd st log r hp,
        ih _ _ (h.erase _)]
      by_cases hir : r.id = i
      · subst hir
        have hmem : r.id ∉ st.pending.erase r.id := by
          rw [h.mem_erase_iff]
          simp
        rw [if_neg hmem, if_pos hp, logFor_append, logFor_same]
        simp [List.filter_cons]
      · have hmem : (i ∈ st.pending.erase r.id) ↔ i ∈ st.pending := by
          rw [h.mem_erase_iff]
          have : i ≠ r.id := fun he => hir he.symm
          simp [this]
        rw [logFor_append, logFor_other i r.id _ hir, List.append_nil]
        have hfc : (r :: rest).filter (fun x => x.id == i)
            = rest.filter (fun x => x.id == i) := by
          simp [List.filter_cons, hir]
        rw [hfc]
        by_cases hi : i ∈ st.pending
        · rw [if_pos (hmem.mpr hi), if_pos hi]
        · rw [if_neg (fun hc => hi (hmem.mp hc)), if_neg hi]
    · rw [handleResponse_not_pending st log r hp, ih _ _ h]
      by_cases hi : i ∈ st.pending
      · have hir : r.id ≠ i := fun he => hp (he ▸ hi)
        have hfc : (r :: rest).filter (fun x => x.id == i)
            = rest.filter (fun x => x.id == i) := by
          simp [List.filter_cons, hir]
        rw [hfc]
      · simp [hi]

theorem step_wsMessage_closed (tr : Trace) (r : CdpResponse) (h : tr.st.wsOpen = false) :
    step tr (Input.wsMessage r) = tr := by
  simp [step, h]

theorem step_wsMessage_open (tr : Trace) (r : CdpResponse) (h : tr.st.wsOpen = true) :
    step tr (Input.wsMessage r)
      = { tr with st := (handleResponse tr.st tr.log r).1,
                  log := (handleResponse tr.st tr.log r).2 } := by
  simp [step, h]

theorem step_wsClose_parts (tr : Trace) :
    (step tr Input.wsClose).st.pending = [] ∧
    (step tr Input.wsClose).st.nextId = tr.st.nextId ∧
    (step tr Input.wsClose).log
      = tr.log ++ tr.st.pending.map
          (fun i => (i, Outcome.rejected "CDP WebSocket closed")) ∧
    (step tr Input.wsClose).issued = tr.issued := by
  unfold step handleWsClose rejectAllPending scheduleReconnect
  by_cases h : tr.st.closed <;> simp [h]

theorem step_wsError_parts (tr : Trace) (m : String) :
    (step tr (Input.wsError m)).st.pending = [] ∧
    (step tr (Input.wsError m)).st.nextId = tr.st.nextId ∧
    (step tr (Input.wsError m)).log
      = tr.log ++ tr.st.pending.map (fun i => (i, Outcome.rejected m)) ∧
    (step tr (Input.wsError m)).issued = tr.issued := by
  unfold step handleWsError rejectAllPending
  simp

theorem step_disconnect_parts (tr : Trace) :
    (step tr Input.disconnect).st.pending = [] ∧
    (step tr Input.disconnect).st.nextId = tr.st.nextId ∧
    (step tr Input.disconnect).log
      = tr.log ++ tr.st.pending.map
          (fun i => (i, Outcome.rejected "CDP bridge disconnected")) ∧
    (step tr Input.disconnect).issued = tr.issued := by
  unfold step disconnect rejectAllPending
  simp

theorem step_connectOk_parts (tr : Trace) :
    (step tr Input.connectOk).st.pending = tr.st.pending ∧
    (step tr Input.connectOk).st.nextId = tr.st.nextId ∧
    (step tr Input.connectOk).log = tr.log ∧
    (step tr Input.connectOk).issued = tr.issued := by
  unfold step connectOkEffect
  simp

theorem step_send_open (tr : Trace) (m : String) (h : tr.st.wsOpen = true) :
    step tr (Input.send m)
      = Trace.mk
          { tr.st with
              nextId := tr.st.nextId + 1
              pending := tr.st.pending ++ [tr.st.nextId] }
          tr.log (tr.issued ++ [tr.st.nextId]) := by
  simp [step, send, h]

theorem step_send_closed (tr : Trace) (m : String) (h : tr.st.wsOpen = false) :
    step tr (Input.send m) = tr := by
  simp [step, send, h]

theorem step_nextId_mono (tr : Trace) (inp : Input) :
    tr.st.nextId ≤ (step tr inp).st.nextId := by
  cases inp with
  | wsMessage r =>
    cases hws : tr.st.wsOpen with
    | false => rw [step_wsMessage_closed tr r hws]
    | true =>
      rw [step_wsMessage_open tr r hws]
      by_cases hp : r.id ∈ tr.st.pending
      · rw [handleResponse_pending_fst _ _ _ hp]
      · rw [handleResponse_not_pending _ _ _ hp]
  | wsClose => exact le_of_eq ((step_wsClose_parts tr).2.1).symm
  | wsError m => exact le_of_eq ((step_wsError_parts tr m).2.1).symm
  | disconnect => exact le_of_eq ((step_disconnect_parts tr).2.1).symm
  | connectOk => exact le_of_eq ((step_connectOk_parts tr).2.1).symm
  | send m =>
    cases hws : tr.st.wsOpen with
    | false => rw [step_send_closed tr m hws]
    | true =>
      rw [step_send_open tr m hws]
      exact Nat.le_succ _

theorem runFrom_cons (tr : Trace) (inp : Input) (rest : List Input) :
    runFrom tr (inp :: rest) = runFrom (step tr inp) rest := rfl

theorem step_issued_extension (tr : Trace) (inp : Input) :
    ∃ extra, (step tr inp).issued = tr.issued ++ extra ∧
      ∀ j ∈ extra, tr.st.nextId ≤ j := by
  cases inp with
  | wsMessage r =>
    cases hws : tr.st.wsOpen with
    | false => exact ⟨[], by rw [step_wsMessage_closed tr r hws]; simp, by simp⟩
    | true => exact ⟨[], by rw [step_wsMessage_open tr r hws]; simp, by simp⟩
  | wsClose => exact ⟨[], by rw [(step_wsClose_parts tr).2.2.2]; simp, by simp⟩
  | wsError m => exact ⟨[], by rw [(step_wsError_parts tr m).2.2.2]; simp, by simp⟩
  | disconnect => exact ⟨[], by rw [(step_disconnect_parts tr).2.2.2]; simp, by simp⟩
  | connectOk => exact ⟨[], by rw [(step_connectOk_parts tr).2.2.2]; simp, by simp⟩
  | send m =>
    cases hws : tr.st.wsOpen with
    | false => exact ⟨[], by rw [step_send_closed tr m hws]; simp, by simp⟩
    | true =>
      refine ⟨[tr.st.nextId], by rw [step_send_open tr m hws], ?_⟩
      intro j hj
      rw [List.mem_singleton.mp hj]

theorem runFrom_issued_extension :
    ∀ (cont : List Input) (tr : Trace),
    ∃ extra, (runFrom tr cont).issued = tr.issued ++ extra ∧
      ∀ j ∈ extra, tr.st.nextId ≤ j := by
  intro cont
  induction cont with
  | nil => intro tr; exact ⟨[], by simp [runFrom], by simp⟩
  | cons inp rest ih =>
    intro tr
    obtain ⟨e1, he1, hb1⟩ := step_issued_extension tr inp
    obtain ⟨e2, he2, hb2⟩ := ih (step tr inp)
    refine ⟨e1 ++ e2, ?_, ?_⟩
    · rw [runFrom_cons, he2, he1, List.append_assoc]
    · intro j hj
      rcases List.mem_append.mp hj with h' | h'
      · exact hb1 j h'
      · exact le_trans (step_nextId_mono tr inp) (hb2 j h')

theorem inv_initial : Inv initialTrace := by
  unfold Inv
  refine ⟨?_, ?_, ?_, ?_, ?_, ?_, ?_⟩ <;>
    simp [initialTrace, initial]

theorem logFor_eq_nil_of_lt (n : Nat) (log : List (Nat × Outcome))
    (h : ∀ e ∈ log, e.1 < n) : logFor n log = [] := by
  rw [logFor, List.filter_eq_nil_iff]
  intro e he hbeq
  have hlt := h e he
  rw [eq_of_beq hbeq] at hlt
  exact lt_irrefl n hlt

theorem logFor_map_eq_nil_of_not_mem (i : Nat) (l : List Nat) (o : Outcome)
    (h : i ∉ l) : logFor i (l.map (fun x => (x, o))) = [] := by
  rw [logFor, List.filter_eq_nil_iff]
  intro e he hbeq
  obtain ⟨x, hx, hxe⟩ := List.mem_map.mp he
  subst hxe
  have hxi : x = i := eq_of_beq hbeq
  exact h (hxi ▸ hx)

theorem inv_step (tr : Trace) (inp : Input) (h : Inv tr) : Inv (step tr inp) := by
  obtain ⟨hpl, hnd, hll, hpf, hil, hic, h1⟩ := h
  cases inp with
  | wsMessage r =>
    cases hws : tr.st.wsOpen with
    | false =>
      rw [step_wsMessage_closed tr r hws]
      exact ⟨hpl, hnd, hll, hpf, hil, hic, h1⟩
    | true =>
      rw [step_wsMessage_open tr r hws]
      by_cases hp : r.id ∈ tr.st.pending
      · rw [handleResponse_pending_fst _ _ _ hp, handleResponse_pending_snd _ _ _ hp]
        refine ⟨?_, hnd.erase _, ?_, ?_, hil, hic, h1⟩
        · intro i hi
          exact hpl i (List.mem_of_mem_erase hi)
        · intro e he
          rcases List.mem_append.mp he with h' | h'
          · exact hll e h'
          · rw [List.mem_singleton.mp h']
            exact hpl r.id hp
        · intro i hi
          obtain ⟨hine, himem⟩ := (hnd.mem_erase_iff).mp hi
          rw [logFor_append, hpf i himem,
            logFor_other i r.id _ (fun he => hine he.symm)]
          rfl
      · rw [handleResponse_not_pending _ _ _ hp]
        exact ⟨hpl, hnd, hll, hpf, hil, hic, h1⟩
  | wsClose =>
    obtain ⟨hp0, hn0, hl0, hi0⟩ := step_wsClose_parts tr
    refine ⟨?_, ?_, ?_, ?_, ?_, ?_, ?_⟩
    · rw [hp0]; intro i hi; cases hi
    · rw [hp0]; exact List.nodup_nil
    · rw [hl0, hn0]
      intro e he
      rcases List.mem_append.mp he with h' | h'
      · exact hll e h'
      · obtain ⟨x, hx, hxe⟩ := List.mem_map.mp h'
        rw [← hxe]
        exact hpl x hx
    · rw [hp0]; intro i hi; cases hi
    · rw [hi0, hn0]; exact hil
    · rw [hi0]; exact hic
    · rw [hn0]; exact h1
  | wsError m =>
    obtain ⟨hp0, hn0, hl0, hi0⟩ := step_wsError_parts tr m
    refine ⟨?_, ?_, ?_, ?_, ?_, ?_, ?_⟩
    · rw [hp0]; intro i hi; cases hi
    · rw [hp0]; exact List.nodup_nil
    · rw [hl0, hn0]
      intro e he
      rcases List.mem_append.mp he with h' | h'
      · exact hll e h'
      · obtain ⟨x, hx, hxe⟩ := List.mem_map.mp h'
        rw [← hxe]
        exact hpl x hx
    · rw [hp0]; intro i hi; cases hi
    · rw [hi0, hn0]; exact hil
    · rw [hi0]; exact hic
    · rw [hn0]; exact h1
  | disconnect =>
    obtain ⟨hp0, hn0, hl0, hi0⟩ := step_disconnect_parts tr
    refine ⟨?_, ?_, ?_, ?_, ?_, ?_, ?_⟩
    · rw [hp0]; intro i hi; cases hi
    · rw [hp0]; exact List.nodup_nil
    · rw [hl0, hn0]
      intro e he
      rcases List.mem_append.mp he with h' | h'
      · exact hll e h'
      · obtain ⟨x, hx, hxe⟩ := List.mem_map.mp h'
        rw [← hxe]
        exact hpl x hx
    · rw [hp0]; intro i hi; cases hi
    · rw [hi0, hn0]; exact hil
    · rw [hi0]; exact hic
    · rw [hn0]; exact h1
  | connectOk =>
    obtain ⟨hp0, hn0, hl0, hi0⟩ := step_connectOk_parts tr
    refine ⟨?_, ?_, ?_, ?_, ?_, ?_, ?_⟩
    · rw [hp0, hn0]; exact hpl
    · rw [hp0]; exact hnd
    · rw [hl0, hn0]; exact hll
    · rw [hp0, hl0]; exact hpf
    · rw [hi0, hn0]; exact hil
    · rw [hi0]; exact hic
    · rw [hn0]; exact h1
  | send m =>
    cases hws : tr.st.wsOpen with
    | false =>
      rw [step_send_closed tr m hws]
      exact ⟨hpl, hnd, hll, hpf, hil, hic, h1⟩
    | true =>
      rw [step_send_open tr m hws]
      refine ⟨?_, ?_, ?_, ?_, ?_, ?_, ?_⟩
      · intro i hi
        rcases List.mem_append.mp hi with h' | h'
        · exact Nat.lt_succ_of_lt (hpl i h')
        · rw [List.mem_singleton.mp h']
          exact Nat.lt_succ_self _
      · rw [List.nodup_append]
        refine ⟨hnd, List.nodup_singleton _, ?_⟩
        intro a ha hb
        rw [List.mem_singleton.mp hb] at ha
        exact absurd (hpl _ ha) (lt_irrefl _)
      · intro e he
        exact Nat.lt_succ_of_lt (hll e he)
      · intro i hi
        rcases List.mem_append.mp hi with h' | h'
        · exact hpf i h'
        · rw [List.mem_singleton.mp h']
          exact logFor_eq_nil_of_lt _ _ hll
      · intro i hi
        rcases List.mem_append.mp hi with h' | h'
        · exact Nat.lt_succ_of_lt (hil i h')
        · rw [List.mem_singleton.mp h']
          exact Nat.lt_succ_self _
      · rw [List.chain'_append]
        refine ⟨hic, List.chain'_singleton _, ?_⟩
        intro x hx y hy
        have hyx : y = tr.st.nextId := (Option.mem_some_iff.mp hy).symm
        rw [hyx]
        exact hil x (List.mem_of_mem_getLast? hx)
      · exact Nat.le_succ_of_le h1

theorem inv_runFrom : ∀ (cont : List Input) (tr : Trace), Inv tr → Inv (runFrom tr cont) := by
  intro cont
  induction cont with
  | nil => intro tr h; exact h
  | cons inp rest ih =>
    intro tr h
    rw [runFrom_cons]
    exact ih (step tr inp) (inv_step tr inp h)

theorem inv_run (ins : List Input) : Inv (run ins) :=
  inv_runFrom ins initialTrace inv_initial

theorem step_untouched (tr : Trace) (inp : Input) (i : Nat) (h : untouched i tr) :
    untouched i (step tr inp) ∧ logFor i (step tr inp).log = logFor i tr.log := by
  obtain ⟨hnp, hlt⟩ := h
  cases inp with
  | wsMessage r =>
    cases hws : tr.st.wsOpen with
    | false =>
      rw [step_wsMessage_closed tr r hws]
      exact ⟨⟨hnp, hlt⟩, rfl⟩
    | true =>
      rw [step_wsMessage_open tr r hws]
      by_cases hp : r.id ∈ tr.st.pending
      · rw [handleResponse_pending_fst _ _ _ hp, handleResponse_pending_snd _ _ _ hp]
        have hir : r.id ≠ i := fun he => hnp (he ▸ hp)
        refine ⟨⟨?_, hlt⟩, ?_⟩
        · intro hc
          exact hnp (List.mem_of_mem_erase hc)
        · rw [logFor_append, logFor_other i r.id _ hir]
          exact List.append_nil _
      · rw [handleResponse_not_pending _ _ _ hp]
        exact ⟨⟨hnp, hlt⟩, rfl⟩
  | wsClose =>
    obtain ⟨hp0, hn0, hl0, _⟩ := step_wsClose_parts tr
    refine ⟨⟨?_, ?_⟩, ?_⟩
    · rw [hp0]; simp
    · rw [hn0]; exact hlt
    · rw [hl0, logFor_append, logFor_map_eq_nil_of_not_mem i _ _ hnp]
      exact List.append_nil _
  | wsError m =>
    obtain ⟨hp0, hn0, hl0, _⟩ := step_wsError_parts tr m
    refine ⟨⟨?_, ?_⟩, ?_⟩
    · rw [hp0]; simp
    · rw [hn0]; exact hlt
    · rw [hl0, logFor_append, logFor_map_eq_nil_of_not_mem i _ _ hnp]
      exact List.append_nil _
  | disconnect =>
    obtain ⟨hp0, hn0, hl0, _⟩ := step_disconnect_parts tr
    refine ⟨⟨?_, ?_⟩, ?_⟩
    · rw [hp0]; simp
    · rw [hn0]; exact hlt
    · rw [hl0, logFor_append, logFor_map_eq_nil_of_not_mem i _ _ hnp]
      exact List.append_nil _
  | connectOk =>
    obtain ⟨hp0, hn0, hl0, _⟩ := step_connectOk_parts tr
    refine ⟨⟨?_, ?_⟩, ?_⟩
    · rw [hp0]; exact hnp
    · rw [hn0]; exact hlt
    · rw [hl0]
  | send m =>
    cases hws : tr.st.wsOpen with
    | false =>
      rw [step_send_closed tr m hws]
      exact ⟨⟨hnp, hlt⟩, rfl⟩
    | true =>
      rw [step_send_open tr m hws]
      refine ⟨⟨?_, Nat.lt_succ_of_lt hlt⟩, rfl⟩
      intro hc
      rcases List.mem_append.mp hc with h' | h'
      · exact hnp h'
      · rw [List.mem_singleton.mp h'] at hlt
        exact lt_irrefl _ hlt

theorem runFrom_untouched :
    ∀ (cont : List Input) (tr : Trace) (i : Nat), untouched i tr →
    untouched i (runFrom tr cont) ∧ logFor i (runFrom tr cont).log = logFor i tr.log := by
  intro cont
  induction cont with
  | nil => intro tr i h; exact ⟨h, rfl⟩
  | cons inp rest ih =>
    intro tr i h
    obtain ⟨h1, h2⟩ := step_untouched tr inp i h
    obtain ⟨h3, h4⟩ := ih (step tr inp) i h1
    rw [runFrom_cons]
    exact ⟨h3, h4.trans h2⟩

end CdpBridge

namespace GatewayClient

theorem gw_nthReconnectDelay_eq (n : Nat) :
    ∀ st : State, st.closed = false →
    nthReconnectDelay st n = some (Backoff.iter st.backoffMs n) := by
  induction n with
  | zero =>
    intro st h
    simp [nthReconnectDelay, scheduleReconnect, h, Backoff.iter]
  | succ n ih =>
    intro st h
    show nthReconnectDelay (scheduleReconnect st).1 n = _
    rw [ih (scheduleReconnect st).1 (by simp [scheduleReconnect, h])]
    simp [scheduleReconnect, h, Backoff.iter, Backoff.doubleCap]

theorem gw_handleResponse_not_pending (st : State) (log : List (String × Outcome))
    (r : ResponseFrame) (h : r.id ∉ st.pending) :
    handleResponse st log r = (st, log) := by
  simp [handleResponse, h]

theorem gw_handleResponse_pending_fst (st : State) (log : List (String × Outcome))
    (r : ResponseFrame) (h : r.id ∈ st.pending) :
    (handleResponse st log r).1 = { st with pending := st.pending.erase r.id } := by
  simp [handleResponse, h]

theorem gw_handleResponse_pending_snd (st : State) (log : List (String × Outcome))
    (r : ResponseFrame) (h : r.id ∈ st.pending) :
    (handleResponse st log r).2 = log ++ [(r.id, responseOutcome r)] := by
  simp [handleResponse, h]

theorem gw_processResponses_cons (st : State) (log : List (String × Outcome))
    (r : ResponseFrame) (rest : List ResponseFrame) :
    processResponses st log (r :: rest)
      = processResponses (handleResponse st log r).1 (handleResponse st log r).2 rest := rfl

theorem gw_logFor_append (i : String) (l1 l2 : List (String × Outcome)) :
    logFor i (l1 ++ l2) = logFor i l1 ++ logFor i l2 :=
  List.filter_append l1 l2

theorem gw_logFor_other (i j : String) (o : Outcome) (h : j ≠ i) :
    logFor i [(j, o)] = [] := by
  simp [logFor, h]

theorem gw_logFor_same (i : String) (o : Outcome) :
    logFor i [(i, o)] = [(i, o)] := by
  simp [logFor]

theorem gw_processResponses_logFor (i : String) :
    ∀ (rs : List ResponseFrame) (st : State) (log : List (String × Outcome)),
    st.pending.Nodup →
    logFor i (processResponses st log rs).2
      = logFor i log ++
        (if i ∈ st.pending then
           match (rs.filter (fun r => r.id == i)).head? with
           | some r => [(i, responseOutcome r)]
           | none => []
         else []) := by
  intro rs
  induction rs with
  | nil =>
    intro st log h
    by_cases hi : i ∈ st.pending <;> simp [processResponses, hi]
  | cons r rest ih =>
    intro st log h
    rw [gw_processResponses_cons]
    by_cases hp : r.id ∈ st.pending
    · rw [gw_handleResponse_pending_fst st log r hp, gw_handleResponse_pending_snd st log r hp,
        ih _ _ (h.erase _)]
      by_cases hir : r.id = i
      · subst hir
        have hmem : r.id ∉ st.pending.erase r.id := by
          rw [h.mem_erase_iff]
          simp
        rw [if_neg hmem, if_pos hp, gw_logFor_append, gw_logFor_same]
        simp [List.filter_cons]
      · have hmem : (i ∈ st.pending.erase r.id) ↔ i ∈ st.pending := by
          rw [h.mem_erase_iff]
          have : i ≠ r.id := fun he => hir he.symm
          simp [this]
        rw [gw_logFor_append, gw_logFor_other i r.id _ hir, List.append_nil]
        have hfc : (r :: rest).filter (fun x => x.id == i)
            = rest.filter (fun x => x.id == i) := by
          simp [List.filter_cons, hir]
        rw [hfc]
        by_cases hi : i ∈ st.pending
        · rw [if_pos (hmem.mpr hi), if_pos hi]
        · rw [if_neg (fun hc => hi (hmem.mp hc)), if_neg hi]
    · rw [gw_handleResponse_not_pending st log r hp, ih _ _ h]
      by_cases hi : i ∈ st.pending
      · have hir : r.id ≠ i := fun he => hp (he ▸ hi)
        have hfc : (r :: rest).filter (fun x => x.id == i)
            = rest.filter (fun x => x.id == i) := by
          simp [List.filter_cons, hir]
        rw [hfc]
      · simp [hi]

theorem handleClose_pending (st : State) (log : List (String × Outcome))
    (code : Int) (reason : String) :
    (handleClose st log code reason).1.pending = [] := by
  unfold handleClose flushPendingErrors scheduleReconnect
  by_cases h : st.closed <;> simp [h]

theorem handleClose_log (st : State) (log : List (String × Outcome))
    (code : Int) (reason : String) :
    (handleClose st log code reason).2.1
      = log ++ st.pending.map (fun x =>
          (x, Outcome.rejected ("gateway closed (" ++ toString code ++ "): " ++ reason))) := by
  unfold handleClose flushPendingErrors scheduleReconnect
  by_cases h : st.closed <;> simp [h]

end GatewayClient

/-- A nodup list mapped to keyed pairs and filtered at a present key
yields exactly that key's pair. -/
theorem map_pair_filter_singleton {α β : Type} [BEq α] [LawfulBEq α] :
    ∀ (l : List α), l.Nodup → ∀ (j : α), j ∈ l → ∀ (f : α → β),
    (l.map (fun i => (i, f i))).filter (fun e => e.1 == j) = [(j, f j)] := by
  intro l
  induction l with
  | nil => intro _ j hj; cases hj
  | cons a rest ih =>
    intro h j hj f
    obtain ⟨hna, hrest⟩ := List.nodup_cons.mp h
    by_cases haj : a = j
    · subst haj
      have hempty : (rest.map (fun i => (i, f i))).filter (fun e => e.1 == a) = [] := by
        rw [List.filter_eq_nil_iff]
        intro e he hbeq
        obtain ⟨x, hx, hxe⟩ := List.mem_map.mp he
        subst hxe
        have hxa : x = a := eq_of_beq hbeq
        exact hna (hxa ▸ hx)
      simp [List.filter_cons, hempty]
    · have hj' : j ∈ rest := by
        cases List.mem_cons.mp hj with
        | inl he => exact absurd he.symm haj
        | inr hr => exact hr
      have hb : ((a, f a).1 == j) = false := by
        simp [haj]
      simp only [List.map_cons, List.filter_cons, hb, Bool.false_eq_true,
        not_false_iff, if_false]
      exact ih hrest j hj' f

/-! ## Claim C1 — response correlation -/

/-- C1 counterexample: a CDP response that carries an error object whose
`message` is the empty string resolves the pending future with the
response's `result` instead of rejecting it with the server-supplied
message, because the handler tests the truthiness of `error?.message`. -/
theorem c1_counterexample_empty_error_message :
    (CdpBridge.handleResponse (CdpBridge.State.mk true 2 [1] false 1000) []
      (CdpBridge.CdpResponse.mk 1 none (some (CdpBridge.CdpError.mk (some ""))))).2
      = [(1, CdpBridge.Outcome.resolved none)] ∧
    ¬ ((CdpBridge.handleResponse (CdpBridge.State.mk true 2 [1] false 1000) []
      (CdpBridge.CdpResponse.mk 1 none (some (CdpBridge.CdpError.mk (some ""))))).2
      = [(1, CdpBridge.Outcome.rejected "")]) := by
  exact ⟨by decide, by decide⟩

/-- C1 (amended): with distinct pending ids, a call's future is settled
exactly by the unique response whose correlation id matches its request
id, regardless of the other responses and their order; a response whose
id is not pending is dropped without effect; a matched CDP response
rejects with the server-supplied message exactly when `error?.message` is
truthy (non-empty) and otherwise resolves with its `result`; a matched
gateway response resolves with its payload when `ok` and otherwise
rejects with the server-supplied message (defaulting to "unknown error"). -/
theorem c1_response_correlation
    (stC : CdpBridge.State) (logC : List (Nat × CdpBridge.Outcome))
    (rsC : List CdpBridge.CdpResponse) (i : Nat) (r : CdpBridge.CdpResponse)
    (stG : GatewayClient.State) (logG : List (String × GatewayClient.Outcome))
    (rsG : List GatewayClient.ResponseFrame) (j : String) (s : GatewayClient.ResponseFrame)
    (hndC : stC.pending.Nodup) (hiC : i ∈ stC.pending)
    (hrC : rsC.filter (fun x => x.id == i) = [r])
    (hndG : stG.pending.Nodup) (hjG : j ∈ stG.pending)
    (hsG : rsG.filter (fun x => x.id == j) = [s]) :
    CdpBridge.logFor i (CdpBridge.processResponses stC logC rsC).2
      = CdpBridge.logFor i logC ++ [(i, CdpBridge.responseOutcome r)] ∧
    (∀ m, CdpBridge.errMessageTruthy r.error = some m →
      CdpBridge.responseOutcome r = CdpBridge.Outcome.rejected m) ∧
    (CdpBridge.errMessageTruthy r.error = none →
      CdpBridge.responseOutcome r = CdpBridge.Outcome.resolved r.result) ∧
    (∀ (st : CdpBridge.State) (log : List (Nat × CdpBridge.Outcome))
       (x : CdpBridge.CdpResponse), x.id ∉ st.pending →
      CdpBridge.handleResponse st log x = (st, log)) ∧
    GatewayClient.logFor j (GatewayClient.processResponses stG logG rsG).2
      = GatewayClient.logFor j logG ++ [(j, GatewayClient.responseOutcome s)] ∧
    (s.ok = true →
      GatewayClient.responseOutcome s = GatewayClient.Outcome.resolved s.payload) ∧
    (s.ok = false →
      GatewayClient.responseOutcome s
        = GatewayClient.Outcome.rejected (s.errorMessage.getD "unknown error")) ∧
    (∀ (st : GatewayClient.State) (log : List (String × GatewayClient.Outcome))
       (x : GatewayClient.ResponseFrame), x.id ∉ st.pending →
      GatewayClient.handleResponse st log x = (st, log)) := by
  refine ⟨?_, ?_, ?_, ?_, ?_, ?_, ?_, ?_⟩
  · have h1 := CdpBridge.processResponses_logFor i rsC stC logC hndC
    rw [hrC, if_pos hiC] at h1
    exact h1
  · intro m hm
    unfold CdpBridge.responseOutcome
    rw [hm]
  · intro hm
    unfold CdpBridge.responseOutcome
    rw [hm]
  · intro st log x hx
    exact CdpBridge.handleResponse_not_pending st log x hx
  · have h1 := GatewayClient.gw_processResponses_logFor j rsG stG logG hndG
    rw [hsG, if_pos hjG] at h1
    exact h1
  · intro hok
    unfold GatewayClient.responseOutcome
    rw [hok]
    rfl
  · intro hok
    unfold GatewayClient.responseOutcome
    rw [hok]
    rfl
  · intro st log x hx
    exact GatewayClient.gw_handleResponse_not_pending st log x hx

/-- Witness for C1: two pending calls per variant, responses arriving out
of order with an unmatched extra. -/
theorem c1_response_correlation_witness :
    CdpBridge.logFor 1
      (CdpBridge.processResponses (CdpBridge.State.mk true 3 [1, 2] false 1000) []
        [CdpBridge.CdpResponse.mk 2 (some "x") none,
         CdpBridge.CdpResponse.mk 1 none (some (CdpBridge.CdpError.mk (some "boom"))),
         CdpBridge.CdpResponse.mk 9 (some "z") none]).2
      = [(1, CdpBridge.Outcome.rejected "boom")] ∧
    CdpBridge.responseOutcome
      (CdpBridge.CdpResponse.mk 1 none (some (CdpBridge.CdpError.mk (some "boom"))))
      = CdpBridge.Outcome.rejected "boom" ∧
    CdpBridge.handleResponse (CdpBridge.State.mk true 3 [5] false 1000) []
      (CdpBridge.CdpResponse.mk 7 (some "y") none)
      = (CdpBridge.State.mk true 3 [5] false 1000, []) ∧
    GatewayClient.logFor "a"
      (GatewayClient.processResponses
        (GatewayClient.State.mk true false true none ["a", "b"] 1000 none 30000) []
        [GatewayClient.ResponseFrame.mk "b" true (some "p") none,
         GatewayClient.ResponseFrame.mk "a" false none none]).2
      = [("a", GatewayClient.Outcome.rejected "unknown error")] ∧
    GatewayClient.responseOutcome (GatewayClient.ResponseFrame.mk "a" false none none)
      = GatewayClient.Outcome.rejected "unknown error" := by
  obtain ⟨h1, h2, _, h4, h5, _, h7, h8⟩ := c1_response_correlation
    (CdpBridge.State.mk true 3 [1, 2] false 1000) []
    [CdpBridge.CdpResponse.mk 2 (some "x") none,
     CdpBridge.CdpResponse.mk 1 none (some (CdpBridge.CdpError.mk (some "boom"))),
     CdpBridge.CdpResponse.mk 9 (some "z") none]
    1 (CdpBridge.CdpResponse.mk 1 none (some (CdpBridge.CdpError.mk (some "boom"))))
    (GatewayClient.State.mk true false true none ["a", "b"] 1000 none 30000) []
    [GatewayClient.ResponseFrame.mk "b" true (some "p") none,
     GatewayClient.ResponseFrame.mk "a" false none none]
    "a" (GatewayClient.ResponseFrame.mk "a" false none none)
    (by decide) (by decide) (by decide) (by decide) (by decide) (by decide)
  refine ⟨h1.trans (by decide), h2 "boom" (by decide), ?_, h5.trans (by decide), h7 rfl⟩
  exact h4 (CdpBridge.State.mk true 3 [5] false 1000) []
    (CdpBridge.CdpResponse.mk 7 (some "y") none) (by decide)

/-! ## Claim C6 — event ring buffer -/

/-- C6: with capacity `C ≥ 1`, after pushing `C + k` events the size is `C`
and a filterless `query()` returns exactly the last `C` pushed events in
oldest-first order; a push at capacity evicts exactly the single oldest
entry. -/
theorem c6_event_ring_buffer (C k : Nat) (hC : 1 ≤ C)
    (items : List (Int × EventBuffer.EventFrame)) (hlen : items.length = C + k) :
    EventBuffer.size (EventBuffer.pushMany (EventBuffer.mkBuffer C) items) = C ∧
    EventBuffer.query (EventBuffer.pushMany (EventBuffer.mkBuffer C) items) {}
      = (items.map (fun it => EventBuffer.BufferedEvent.mk it.1 it.2)).drop k ∧
    (∀ (b : EventBuffer.Buffer) (now : Int) (f : EventBuffer.EventFrame),
      b.buf.length = b.capacity →
      (EventBuffer.push b now f).buf
        = b.buf.drop 1 ++ [EventBuffer.BufferedEvent.mk now f]) := by
  refine ⟨?_, ?_, ?_⟩
  · rw [EventBuffer.pushMany_mkBuffer C hC]
    simp only [EventBuffer.size, List.length_drop, List.length_map]
    omega
  · rw [EventBuffer.pushMany_mkBuffer C hC, EventBuffer.query_no_filters]
    have h : items.length - C = k := by omega
    rw [h]
  · intro b now f hb
    simp [EventBuffer.push, hb]

/-- Witness for C6 at capacity 2 with 3 pushes. -/
theorem c6_event_ring_buffer_witness :
    EventBuffer.size (EventBuffer.pushMany (EventBuffer.mkBuffer 2)
      [((1 : Int), EventBuffer.EventFrame.mk "a" none),
       ((2 : Int), EventBuffer.EventFrame.mk "b" none),
       ((3 : Int), EventBuffer.EventFrame.mk "c" none)]) = 2 ∧
    EventBuffer.query (EventBuffer.pushMany (EventBuffer.mkBuffer 2)
      [((1 : Int), EventBuffer.EventFrame.mk "a" none),
       ((2 : Int), EventBuffer.EventFrame.mk "b" none),
       ((3 : Int), EventBuffer.EventFrame.mk "c" none)]) {}
      = [EventBuffer.BufferedEvent.mk 2 (EventBuffer.EventFrame.mk "b" none),
         EventBuffer.BufferedEvent.mk 3 (EventBuffer.EventFrame.mk "c" none)] ∧
    (EventBuffer.push
      (EventBuffer.Buffer.mk
        [EventBuffer.BufferedEvent.mk 1 (EventBuffer.EventFrame.mk "a" none),
         EventBuffer.BufferedEvent.mk 2 (EventBuffer.EventFrame.mk "b" none)] 2)
      9 (EventBuffer.EventFrame.mk "d" none)).buf
      = [EventBuffer.BufferedEvent.mk 2 (EventBuffer.EventFrame.mk "b" none),
         EventBuffer.BufferedEvent.mk 9 (EventBuffer.EventFrame.mk "d" none)] := by
  obtain ⟨h1, h2, h3⟩ := c6_event_ring_buffer 2 1 (by norm_num)
    [((1 : Int), EventBuffer.EventFrame.mk "a" none),
     ((2 : Int), EventBuffer.EventFrame.mk "b" none),
     ((3 : Int), EventBuffer.EventFrame.mk "c" none)] rfl
  refine ⟨h1, h2.trans (by rfl), ?_⟩
  exact (h3 (EventBuffer.Buffer.mk
    [EventBuffer.BufferedEvent.mk 1 (EventBuffer.EventFrame.mk "a" none),
     EventBuffer.BufferedEvent.mk 2 (EventBuffer.EventFrame.mk "b" none)] 2)
    9 (EventBuffer.EventFrame.mk "d" none) rfl).trans (by rfl)

/-! ## Claim C9 — routeResponse pops before the sink check -/

/-- C9: when no response sink is registered, `routeResponse` still removes
the oldest pending record (the pop precedes the callback check), delivers
nothing, and in every case a notification removes exactly the head of the
staleness-pruned queue. -/
theorem c9_route_pops_without_sink (r : ResponseRouter.Router) (now : Int) (text : String)
    (h : r.hasCallback = false) :
    (ResponseRouter.routeResponse r now text).1.pendingMessages
      = (ResponseRouter.pruneStale now r.pendingMessages).drop 1 ∧
    (ResponseRouter.routeResponse r now text).2 = none ∧
    ∀ r' : ResponseRouter.Router,
      (ResponseRouter.routeResponse r' now text).1.pendingMessages
        = (ResponseRouter.pruneStale now r'.pendingMessages).drop 1 :=
  ⟨ResponseRouter.routeResponse_pending r now text,
   ResponseRouter.routeResponse_none_of_no_callback r now text h,
   fun r' => ResponseRouter.routeResponse_pending r' now text⟩

/-- Witness for C9: a sink-less router loses its only record and delivers
nothing; a router with a sink also pops exactly one. -/
theorem c9_route_pops_without_sink_witness :
    (ResponseRouter.routeResponse
      (ResponseRouter.Router.mk [ResponseRouter.PendingMessage.mk "c" "u" 0] false)
      5 "t").1.pendingMessages = [] ∧
    (ResponseRouter.routeResponse
      (ResponseRouter.Router.mk [ResponseRouter.PendingMessage.mk "c" "u" 0] false)
      5 "t").2 = none ∧
    (ResponseRouter.routeResponse
      (ResponseRouter.Router.mk
        [ResponseRouter.PendingMessage.mk "d" "v" 1,
         ResponseRouter.PendingMessage.mk "e" "w" 2] true)
      5 "t").1.pendingMessages = [ResponseRouter.PendingMessage.mk "e" "w" 2] := by
  obtain ⟨h1, h2, h3⟩ := c9_route_pops_without_sink
    (ResponseRouter.Router.mk [ResponseRouter.PendingMessage.mk "c" "u" 0] false)
    5 "t" rfl
  exact ⟨h1.trans (by decide), h2,
    (h3 (ResponseRouter.Router.mk
      [ResponseRouter.PendingMessage.mk "d" "v" 1,
       ResponseRouter.PendingMessage.mk "e" "w" 2] true)).trans (by decide)⟩

/-! ## Claim C5 — correlator FIFO matching with staleness eviction -/

/-- C5: after tracking A at t=0 and B at t=1, a first notification (while A
is fresh) is delivered with A's channel/sender, a second with B's; a
notification arriving once A has aged past 5 minutes with no other record
pending is dropped. -/
theorem c5_response_correlator_fifo
    (chA uA chB uB text1 text2 text3 : String) (t2 t3 t4 : Int)
    (h2 : t2 ≤ 300000) (h3 : t3 ≤ 300001) (h4 : 300000 < t4) :
    ResponseRouter.routeResponse
      (ResponseRouter.trackInjection
        (ResponseRouter.trackInjection ⟨[], true⟩ 0 chA uA) 1 chB uB) t2 text1
      = (⟨[⟨chB, uB, 1⟩], true⟩, some (chA, uA, text1)) ∧
    ResponseRouter.routeResponse
      (ResponseRouter.Router.mk [ResponseRouter.PendingMessage.mk chB uB 1] true) t3 text2
      = (⟨[], true⟩, some (chB, uB, text2)) ∧
    ResponseRouter.routeResponse
      (ResponseRouter.trackInjection ⟨[], true⟩ 0 chA uA) t4 text3
      = (⟨[], true⟩, none) := by
  have hA : ResponseRouter.trackInjection ⟨[], true⟩ 0 chA uA
      = ⟨[⟨chA, uA, 0⟩], true⟩ := by
    unfold ResponseRouter.trackInjection
    norm_num [ResponseRouter.pruneStale, ResponseRouter.CONTEXT_TIMEOUT_MS]
  have hB : ResponseRouter.trackInjection
      (ResponseRouter.Router.mk [ResponseRouter.PendingMessage.mk chA uA 0] true) 1 chB uB
      = ⟨[⟨chA, uA, 0⟩, ⟨chB, uB, 1⟩], true⟩ := by
    unfold ResponseRouter.trackInjection
    norm_num [ResponseRouter.pruneStale, ResponseRouter.CONTEXT_TIMEOUT_MS]
  refine ⟨?_, ?_, ?_⟩
  · rw [hA, hB]
    have hp : ResponseRouter.pruneStale t2
        [⟨chA, uA, 0⟩, ⟨chB, uB, 1⟩] = [⟨chA, uA, 0⟩, ⟨chB, uB, 1⟩] := by
      apply ResponseRouter.pruneStale_cons_of_fresh
      show ¬ ((0 : Int) < t2 - 300000)
      omega
    simp [ResponseRouter.routeResponse, hp]
  · have hp : ResponseRouter.pruneStale t3
        [ResponseRouter.PendingMessage.mk chB uB 1]
        = [ResponseRouter.PendingMessage.mk chB uB 1] := by
      apply ResponseRouter.pruneStale_cons_of_fresh
      show ¬ ((1 : Int) < t3 - 300000)
      omega
    simp [ResponseRouter.routeResponse, hp]
  · rw [hA]
    have hp : ResponseRouter.pruneStale t4 [⟨chA, uA, 0⟩] = [] := by
      rw [ResponseRouter.pruneStale_cons_of_stale (by show (0 : Int) < t4 - 300000; omega)]
      rfl
    simp [ResponseRouter.routeResponse, hp]

/-- Witness for C5 at concrete channels and times. -/
theorem c5_response_correlator_fifo_witness :
    ResponseRouter.routeResponse
      (ResponseRouter.trackInjection
        (ResponseRouter.trackInjection ⟨[], true⟩ 0 "A" "a") 1 "B" "b") 10 "t1"
      = (⟨[⟨"B", "b", 1⟩], true⟩, some ("A", "a", "t1")) ∧
    ResponseRouter.routeResponse
      (ResponseRouter.Router.mk [ResponseRouter.PendingMessage.mk "B" "b" 1] true) 11 "t2"
      = (⟨[], true⟩, some ("B", "b", "t2")) ∧
    ResponseRouter.routeResponse
      (ResponseRouter.trackInjection ⟨[], true⟩ 0 "A" "a") 300001 "t3"
      = (⟨[], true⟩, none) :=
  c5_response_correlator_fifo "A" "a" "B" "b" "t1" "t2" "t3" 10 11 300001
    (by norm_num) (by norm_num) (by norm_num)

/-! ## Claim C4 — reconnect backoff -/

/-- C4: for every `N ≥ 1` the delay scheduled before the Nth consecutive
reconnect attempt is `min(1000·2^(N-1), 30000)` ms in both connection
variants, and a successful reopening (CDP `connect` success, gateway
hello-ok) resets the backoff to 1000 ms. -/
theorem c4_reconnect_backoff
    (stC : CdpBridge.State) (stG : GatewayClient.State) (N : Nat)
    (hC1 : stC.closed = false) (hC2 : stC.backoffMs = 1000)
    (hG1 : stG.closed = false) (hG2 : stG.backoffMs = 1000)
    (hN : 1 ≤ N) :
    CdpBridge.nthReconnectDelay stC (N - 1) = some (min (1000 * 2 ^ (N - 1)) 30000) ∧
    GatewayClient.nthReconnectDelay stG (N - 1) = some (min (1000 * 2 ^ (N - 1)) 30000) ∧
    (∀ st : CdpBridge.State, (CdpBridge.connectOkEffect st).backoffMs = 1000) ∧
    (∀ (st : GatewayClient.State) (p : Option Int) (now : Int),
      (GatewayClient.applyHelloOk st p now).backoffMs = 1000) := by
  refine ⟨?_, ?_, fun st => rfl, fun st p now => rfl⟩
  · rw [CdpBridge.nthReconnectDelay_eq _ stC hC1, hC2, Backoff.iter_1000]
  · rw [GatewayClient.gw_nthReconnectDelay_eq _ stG hG1, hG2, Backoff.iter_1000]

/-- Witness for C4 at N = 6, where the 30 s cap binds. -/
theorem c4_reconnect_backoff_witness :
    CdpBridge.nthReconnectDelay CdpBridge.initial 5 = some 30000 ∧
    GatewayClient.nthReconnectDelay GatewayClient.initial 5 = some 30000 ∧
    (CdpBridge.connectOkEffect CdpBridge.initial).backoffMs = 1000 ∧
    (GatewayClient.applyHelloOk GatewayClient.initial (some 500) 7).backoffMs = 1000 := by
  obtain ⟨h1, h2, h3, h4⟩ := c4_reconnect_backoff CdpBridge.initial GatewayClient.initial 6
    rfl rfl rfl rfl (by norm_num)
  exact ⟨h1.trans (by norm_num), h2.trans (by norm_num),
    h3 CdpBridge.initial, h4 GatewayClient.initial (some 500) 7⟩

/-! ## Claim C3 — close rejects all pending exactly once -/

/-- C3: after a transport close, every call pending at the moment of the
close is settled by exactly one rejection — it was unsettled before the
close, carries exactly the close rejection afterwards, and is never
settled again for the rest of the lifetime — and the pending map is empty
afterwards. Target Control proved over whole-lifetime runs; Gateway over
the close transition (with the uuid-freshness of its ids as hypotheses). -/
theorem c3_close_rejects_pending_exactly_once
    (ins cont : List CdpBridge.Input) (i : Nat)
    (stG : GatewayClient.State) (logG : List (String × GatewayClient.Outcome))
    (j : String) (code : Int) (reason : String)
    (hi : i ∈ (CdpBridge.run ins).st.pending)
    (hndG : stG.pending.Nodup) (hjG : j ∈ stG.pending)
    (hfreshG : GatewayClient.logFor j logG = []) :
    (CdpBridge.step (CdpBridge.run ins) CdpBridge.Input.wsClose).st.pending = [] ∧
    CdpBridge.logFor i (CdpBridge.run ins).log = [] ∧
    CdpBridge.logFor i
      (CdpBridge.runFrom (CdpBridge.step (CdpBridge.run ins) CdpBridge.Input.wsClose) cont).log
      = [(i, CdpBridge.Outcome.rejected "CDP WebSocket closed")] ∧
    (GatewayClient.handleClose stG logG code reason).1.pending = [] ∧
    GatewayClient.logFor j (GatewayClient.handleClose stG logG code reason).2.1
      = [(j, GatewayClient.Outcome.rejected
          ("gateway closed (" ++ toString code ++ "): " ++ reason))] := by
  obtain ⟨hpl, hnd, hll, hpf, hil, hic, h1⟩ := CdpBridge.inv_run ins
  obtain ⟨hp0, hn0, hl0, hi0⟩ := CdpBridge.step_wsClose_parts (CdpBridge.run ins)
  have hfresh : CdpBridge.logFor i (CdpBridge.run ins).log = [] := hpf i hi
  refine ⟨hp0, hfresh, ?_, GatewayClient.handleClose_pending stG logG code reason, ?_⟩
  · have hclose : CdpBridge.logFor i
        (CdpBridge.step (CdpBridge.run ins) CdpBridge.Input.wsClose).log
        = [(i, CdpBridge.Outcome.rejected "CDP WebSocket closed")] := by
      rw [hl0, CdpBridge.logFor_append, hfresh, List.nil_append]
      exact map_pair_filter_singleton _ hnd i hi _
    have huntouched : CdpBridge.untouched i
        (CdpBridge.step (CdpBridge.run ins) CdpBridge.Input.wsClose) := by
      constructor
      · rw [hp0]; simp
      · rw [hn0]; exact hpl i hi
    obtain ⟨_, hstable⟩ := CdpBridge.runFrom_untouched cont _ i huntouched
    rw [hstable, hclose]
  · rw [GatewayClient.handleClose_log, GatewayClient.gw_logFor_append, hfreshG,
      List.nil_append]
    exact map_pair_filter_singleton _ hndG j hjG _

/-- Witness for C3: a run issuing two calls, then a close, then a further
reconnect and call; gateway with a single pending id. -/
theorem c3_close_rejects_pending_exactly_once_witness :
    (CdpBridge.step
      (CdpBridge.run [CdpBridge.Input.connectOk, CdpBridge.Input.send "m1",
        CdpBridge.Input.send "m2"]) CdpBridge.Input.wsClose).st.pending = [] ∧
    CdpBridge.logFor 2
      (CdpBridge.run [CdpBridge.Input.connectOk, CdpBridge.Input.send "m1",
        CdpBridge.Input.send "m2"]).log = [] ∧
    CdpBridge.logFor 2
      (CdpBridge.runFrom
        (CdpBridge.step
          (CdpBridge.run [CdpBridge.Input.connectOk, CdpBridge.Input.send "m1",
            CdpBridge.Input.send "m2"]) CdpBridge.Input.wsClose)
        [CdpBridge.Input.connectOk, CdpBridge.Input.send "m3"]).log
      = [(2, CdpBridge.Outcome.rejected "CDP WebSocket closed")] ∧
    (GatewayClient.handleClose
      (GatewayClient.State.mk true false true none ["a"] 1000 none 30000)
      [] 1006 "gone").1.pending = [] ∧
    GatewayClient.logFor "a"
      (GatewayClient.handleClose
        (GatewayClient.State.mk true false true none ["a"] 1000 none 30000)
        [] 1006 "gone").2.1
      = [("a", GatewayClient.Outcome.rejected
          ("gateway closed (" ++ toString (1006 : Int) ++ "): " ++ "gone"))] := by
  exact c3_close_rejects_pending_exactly_once
    [CdpBridge.Input.connectOk, CdpBridge.Input.send "m1", CdpBridge.Input.send "m2"]
    [CdpBridge.Input.connectOk, CdpBridge.Input.send "m3"] 2
    (GatewayClient.State.mk true false true none ["a"] 1000 none 30000)
    [] "a" 1006 "gone" (by decide) (by decide) (by decide) (by decide)

/-! ## Claim C10 — id monotonicity across the bridge lifetime -/

/-- C10: the CDP id counter starts at 1, never decreases under any input
(including disconnect and reconnect), the ids issued over a whole lifetime
are strictly increasing and pairwise distinct, every close or disconnect
empties the pending map, every id issued in any continuation of a run
exceeds every id issued before, and handling a response never settles or
unpends a request with a different id — so a response to a pre-close
request can never resolve a post-close request. -/
theorem c10_cdp_id_lifetime
    (ins cont : List CdpBridge.Input) (i j : Nat)
    (hi : i ∈ (CdpBridge.run ins).issued)
    (hj : j ∈ ((CdpBridge.runFrom (CdpBridge.run ins) cont).issued.drop
      (CdpBridge.run ins).issued.length)) :
    CdpBridge.initialTrace.st.nextId = 1 ∧
    (CdpBridge.run ins).issued.Chain' (· < ·) ∧
    (CdpBridge.run ins).issued.Nodup ∧
    (∀ (tr : CdpBridge.Trace) (inp : CdpBridge.Input),
      tr.st.nextId ≤ (CdpBridge.step tr inp).st.nextId) ∧
    (CdpBridge.step (CdpBridge.run ins) CdpBridge.Input.wsClose).st.pending = [] ∧
    (CdpBridge.step (CdpBridge.run ins) CdpBridge.Input.disconnect).st.pending = [] ∧
    i < j ∧
    (∀ (st : CdpBridge.State) (log : List (Nat × CdpBridge.Outcome))
       (r : CdpBridge.CdpResponse) (k : Nat), r.id ≠ k →
      CdpBridge.logFor k (CdpBridge.handleResponse st log r).2 = CdpBridge.logFor k log ∧
      ((k ∈ (CdpBridge.handleResponse st log r).1.pending) ↔ k ∈ st.pending)) := by
  obtain ⟨hpl, hnd, hll, hpf, hil, hic, h1⟩ := CdpBridge.inv_run ins
  refine ⟨rfl, hic, ?_, CdpBridge.step_nextId_mono,
    (CdpBridge.step_wsClose_parts _).1, (CdpBridge.step_disconnect_parts _).1, ?_, ?_⟩
  · exact (List.chain'_iff_pairwise.mp hic).nodup
  · obtain ⟨extra, he, hb⟩ := CdpBridge.runFrom_issued_extension cont (CdpBridge.run ins)
    have hdrop : ((CdpBridge.runFrom (CdpBridge.run ins) cont).issued.drop
        (CdpBridge.run ins).issued.length) = extra := by
      rw [he]
      exact List.drop_left _ _
    rw [hdrop] at hj
    exact lt_of_lt_of_le (hil i hi) (hb j hj)
  · intro st log r k hrk
    by_cases hp : r.id ∈ st.pending
    · rw [CdpBridge.handleResponse_pending_fst _ _ _ hp,
        CdpBridge.handleResponse_pending_snd _ _ _ hp]
      constructor
      · rw [CdpBridge.logFor_append, CdpBridge.logFor_other k r.id _ hrk]
        exact List.append_nil _
      · exact List.mem_erase_of_ne (fun he => hrk he.symm)
    · rw [CdpBridge.handleResponse_not_pending _ _ _ hp]
      exact ⟨rfl, Iff.rfl⟩

/-- Witness for C10: a lifetime with a call, a close, a reconnect and a
further call; the continuation issues id 3, strictly above ids 1 and 2. -/
theorem c10_cdp_id_lifetime_witness :
    CdpBridge.initialTrace.st.nextId = 1 ∧
    (CdpBridge.run [CdpBridge.Input.connectOk, CdpBridge.Input.send "a",
      CdpBridge.Input.wsClose, CdpBridge.Input.connectOk,
      CdpBridge.Input.send "b"]).issued.Chain' (· < ·) ∧
    (CdpBridge.run [CdpBridge.Input.connectOk, CdpBridge.Input.send "a",
      CdpBridge.Input.wsClose, CdpBridge.Input.connectOk,
      CdpBridge.Input.send "b"]).issued.Nodup ∧
    CdpBridge.initialTrace.st.nextId
      ≤ (CdpBridge.step CdpBridge.initialTrace (CdpBridge.Input.send "x")).st.nextId ∧
    (CdpBridge.step
      (CdpBridge.run [CdpBridge.Input.connectOk, CdpBridge.Input.send "a",
        CdpBridge.Input.wsClose, CdpBridge.Input.connectOk,
        CdpBridge.Input.send "b"]) CdpBridge.Input.wsClose).st.pending = [] ∧
    (1 : Nat) < 3 ∧
    CdpBridge.logFor 3
      (CdpBridge.handleResponse (CdpBridge.State.mk true 4 [3] false 1000) []
        (CdpBridge.CdpResponse.mk 1 (some "r") none)).2 = CdpBridge.logFor 3 [] ∧
    ((3 ∈ (CdpBridge.handleResponse (CdpBridge.State.mk true 4 [3] false 1000) []
        (CdpBridge.CdpResponse.mk 1 (some "r") none)).1.pending) ↔
      3 ∈ (CdpBridge.State.mk true 4 [3] false 1000).pending) := by
  obtain ⟨h1, h2, h3, h4, h5, _, h7, h8⟩ := c10_cdp_id_lifetime
    [CdpBridge.Input.connectOk, CdpBridge.Input.send "a", CdpBridge.Input.wsClose,
     CdpBridge.Input.connectOk, CdpBridge.Input.send "b"]
    [CdpBridge.Input.send "c"] 1 3 (by decide) (by decide)
  obtain ⟨h8a, h8b⟩ := h8 (CdpBridge.State.mk true 4 [3] false 1000) []
    (CdpBridge.CdpResponse.mk 1 (some "r") none) 3 (by decide)
  exact ⟨h1, h2, h3, h4 CdpBridge.initialTrace (CdpBridge.Input.send "x"), h5, h7, h8a, h8b⟩

/-! ## Claim C7 — target selection in `connect` -/

/-- C7 counterexample: a non-empty discovery list whose selected target has
no `webSocketDebuggerUrl` makes `connect` fail, refuting "fails if and only
if the list is empty". -/
theorem c7_counterexample_nonempty_list_fails :
    ([CdpBridge.CdpTarget.mk "t1" "page" "" "" none] ≠ ([] : List CdpBridge.CdpTarget)) ∧
    CdpBridge.connect CdpBridge.initial [CdpBridge.CdpTarget.mk "t1" "page" "" "" none] true
      = Except.error "No CDP target with webSocketDebuggerUrl found" := by
  exact ⟨by decide, rfl⟩

/-- C7 (amended): `connect` selects the first "page"-typed target, falling
back to the first listed entry; an empty list always fails with the
discovery error; when the selected target carries a (truthy)
`webSocketDebuggerUrl` and the socket opens, `connect` succeeds with it;
and the discovery error occurs exactly when the selected target lacks
such a url (in particular on non-empty lists, too). -/
theorem c7_connect_target_selection (st : CdpBridge.State)
    (targets : List CdpBridge.CdpTarget) (t : CdpBridge.CdpTarget) (u : String)
    (hfind : targets.find? (fun t => t.type == "page") = some t)
    (hu : CdpBridge.selectedWsUrl targets = some u) :
    CdpBridge.selectTarget targets = some t ∧
    CdpBridge.connect st targets true
      = Except.ok (CdpBridge.connectOkEffect st, u) ∧
    (∀ targets' : List CdpBridge.CdpTarget,
      targets'.find? (fun t => t.type == "page") = none →
      CdpBridge.selectTarget targets' = targets'.head?) ∧
    (CdpBridge.connect st [] true
      = Except.error "No CDP target with webSocketDebuggerUrl found") ∧
    (∀ targets' : List CdpBridge.CdpTarget,
      (CdpBridge.connect st targets' true
        = Except.error "No CDP target with webSocketDebuggerUrl found")
      ↔ CdpBridge.selectedWsUrl targets' = none) := by
  refine ⟨?_, ?_, ?_, rfl, ?_⟩
  · unfold CdpBridge.selectTarget
    rw [hfind]
  · unfold CdpBridge.connect
    rw [hu]
    rfl
  · intro targets' h
    unfold CdpBridge.selectTarget
    rw [h]
  · intro targets'
    unfold CdpBridge.connect
    cases h : CdpBridge.selectedWsUrl targets' with
    | none => simp [h]
    | some u' => simp [h]

/-- Witness for C7: a list whose second entry is the first "page" target. -/
theorem c7_connect_target_selection_witness :
    CdpBridge.selectTarget
      [CdpBridge.CdpTarget.mk "x" "tab" "" "" (some "ws://a"),
       CdpBridge.CdpTarget.mk "y" "page" "" "" (some "ws://b")]
      = some (CdpBridge.CdpTarget.mk "y" "page" "" "" (some "ws://b")) ∧
    CdpBridge.connect CdpBridge.initial
      [CdpBridge.CdpTarget.mk "x" "tab" "" "" (some "ws://a"),
       CdpBridge.CdpTarget.mk "y" "page" "" "" (some "ws://b")] true
      = Except.ok (CdpBridge.connectOkEffect CdpBridge.initial, "ws://b") ∧
    CdpBridge.selectTarget [CdpBridge.CdpTarget.mk "x" "tab" "" "" (some "ws://a")]
      = some (CdpBridge.CdpTarget.mk "x" "tab" "" "" (some "ws://a")) ∧
    CdpBridge.connect CdpBridge.initial [] true
      = Except.error "No CDP target with webSocketDebuggerUrl found" := by
  obtain ⟨h1, h2, h3, h4, _⟩ := c7_connect_target_selection CdpBridge.initial
    [CdpBridge.CdpTarget.mk "x" "tab" "" "" (some "ws://a"),
     CdpBridge.CdpTarget.mk "y" "page" "" "" (some "ws://b")]
    (CdpBridge.CdpTarget.mk "y" "page" "" "" (some "ws://b")) "ws://b"
    (by decide) (by decide)
  exact ⟨h1, h2,
    (h3 [CdpBridge.CdpTarget.mk "x" "tab" "" "" (some "ws://a")] (by decide)).trans (by decide),
    h4⟩

/-! ## Claim C2 — gateway request gating -/

/-- C2 counterexample: with the socket open but the handshake not yet
completed (`connectSent = false`, so `isConnected()` is false), `request`
does not fail — it sends the frame and queues the pending entry. -/
theorem c2_counterexample_pre_handshake_request :
    GatewayClient.isConnected
      (GatewayClient.State.mk true false false none [] 1000 none 30000) = false ∧
    GatewayClient.request
      (GatewayClient.State.mk true false false none [] 1000 none 30000) "abc" "ping"
      = Except.ok
          (GatewayClient.State.mk true false false none ["abc"] 1000 none 30000,
           GatewayClient.ReqFrame.mk "abc" "ping") := by
  exact ⟨rfl, rfl⟩

/-- C2 (amended): a gateway `request` fails immediately with the
not-connected error exactly when the socket is not open; the handshake
state is not consulted, so a request made after the socket opens but
before the handshake completes is sent and queued normally. -/
theorem c2_request_gate (st : GatewayClient.State) (id method : String) :
    GatewayClient.request st id method
      = (if st.wsOpen then
           Except.ok ({ st with pending := st.pending ++ [id] },
             GatewayClient.ReqFrame.mk id method)
         else Except.error "gateway not connected") := by
  unfold GatewayClient.request
  by_cases h : st.wsOpen <;> simp [h]

/-! ## Claim C8 — gateway liveness watchdog -/

/-- C8 counterexample: after a handshake advertising a 500 ms tick
interval, the watchdog timer period is `max(500, 1000) = 1000` ms, not the
advertised interval. -/
theorem c8_counterexample_watch_interval :
    (GatewayClient.applyHelloOk GatewayClient.initial (some 500) 7).tickIntervalMs = 500 ∧
    GatewayClient.startTickWatchInterval
      (GatewayClient.applyHelloOk GatewayClient.initial (some 500) 7).tickIntervalMs = 1000 ∧
    ¬ (GatewayClient.startTickWatchInterval
        (GatewayClient.applyHelloOk GatewayClient.initial (some 500) 7).tickIntervalMs
       = (GatewayClient.applyHelloOk GatewayClient.initial (some 500) 7).tickIntervalMs) := by
  exact ⟨rfl, rfl, by decide⟩

/-- C8 (amended): every "tick" event stamps `lastTick` with the current
time; the watchdog period is `max(tickIntervalMs, 1000)` with
`tickIntervalMs` renegotiated from each handshake reply (default 30000);
a watchdog firing force-closes exactly when the client is not closed and
more than `2 × tickIntervalMs` has elapsed since the (nonzero) last tick,
and never while ticks arrive within that bound. -/
theorem c8_tick_watchdog (st : GatewayClient.State) (now t : Int)
    (hcl : st.closed = false) (hlt : st.lastTick = some t) (ht0 : t ≠ 0)
    (hgap : st.tickIntervalMs * 2 < now - t) :
    GatewayClient.tickCheckCloses st now = true ∧
    (∀ (st' : GatewayClient.State) (now' t' : Int),
      st'.lastTick = some t' → now' - t' ≤ st'.tickIntervalMs * 2 →
      GatewayClient.tickCheckCloses st' now' = false) ∧
    (∀ (st' : GatewayClient.State) (now' : Int) (freshId : String),
      (GatewayClient.handleEvent st' now'
        (GatewayClient.EventFrame.mk "tick" none) freshId).1.lastTick = some now') ∧
    (∀ (st' : GatewayClient.State) (p now' : Int),
      (GatewayClient.applyHelloOk st' (some p) now').tickIntervalMs = p) ∧
    (∀ (st' : GatewayClient.State) (now' : Int),
      (GatewayClient.applyHelloOk st' none now').tickIntervalMs = 30000) ∧
    (∀ q : Int, GatewayClient.startTickWatchInterval q = max q 1000) := by
  refine ⟨?_, ?_, ?_, fun st' p now' => rfl, fun st' now' => rfl, fun q => rfl⟩
  · unfold GatewayClient.tickCheckCloses
    rw [hcl, hlt]
    simp [ht0]
    omega
  · intro st' now' t' hlt' hle
    unfold GatewayClient.tickCheckCloses
    rw [hlt']
    by_cases hc : st'.closed
    · simp [hc]
    · simp [hc]
      intro ht0'
      omega
  · intro st' now' freshId
    rfl

/-- Witness for C8: interval 10 ms, last tick at 5; a check at 26 closes,
a check at 25 does not. -/
theorem c8_tick_watchdog_witness :
    GatewayClient.tickCheckCloses
      (GatewayClient.State.mk true false true none [] 1000 (some 5) 10) 26 = true ∧
    GatewayClient.tickCheckCloses
      (GatewayClient.State.mk true false true none [] 1000 (some 5) 10) 25 = false ∧
    (GatewayClient.handleEvent
      (GatewayClient.State.mk true false true none [] 1000 (some 5) 10) 26
      (GatewayClient.EventFrame.mk "tick" none) "f1").1.lastTick = some 26 ∧
    (GatewayClient.applyHelloOk GatewayClient.initial (some 500) 7).tickIntervalMs = 500 ∧
    (GatewayClient.applyHelloOk GatewayClient.initial none 7).tickIntervalMs = 30000 ∧
    GatewayClient.startTickWatchInterval 500 = max 500 1000 := by
  obtain ⟨h1, h2, h3, h4, h5, h6⟩ := c8_tick_watchdog
    (GatewayClient.State.mk true false true none [] 1000 (some 5) 10) 26 5
    rfl rfl (by decide) (by decide)
  exact ⟨h1,
    h2 (GatewayClient.State.mk true false true none [] 1000 (some 5) 10) 25 5 rfl (by decide),
    h3 (GatewayClient.State.mk true false true none [] 1000 (some 5) 10) 26 "f1",
    h4 GatewayClient.initial 500 7, h5 GatewayClient.initial 7, h6 500⟩

end ClawBridge
